import Mathlib

/-
  Verification development for the Out of Space multiplayer game backend.

  The Go sources are shallowly embedded below: Go maps become association
  lists, machine floats become rationals, wall-clock times become natural
  numbers supplied explicitly, goroutine channels are modelled by the
  observable interaction they permit, and randomness is supplied by an
  explicit oracle list of naturals. Each definition carries a note naming
  the Go function it embeds.
-/

namespace OOS

/-! ## Generic association lists (embedding of Go maps) -/

def lookupA {κ β : Type} [DecidableEq κ] : List (κ × β) → κ → Option β
  | [], _ => none
  | (k, v) :: rest, key => if k = key then some v else lookupA rest key

/-- Replace the first entry with the given key, or append a new entry.
Embeds Go map assignment. -/
def updateA {κ β : Type} [DecidableEq κ] : List (κ × β) → κ → β → List (κ × β)
  | [], key, value => [(key, value)]
  | (k, v) :: rest, key, value =>
    if k = key then (key, value) :: rest else (k, v) :: updateA rest key value

/-- Remove the first entry with the given key. Embeds Go `delete` on a map,
which holds each key at most once. -/
def removeA {κ β : Type} [DecidableEq κ] : List (κ × β) → κ → List (κ × β)
  | [], _ => []
  | (k, v) :: rest, key => if k = key then rest else (k, v) :: removeA rest key

/-! ## Message wire format (core Message, from the message codec source file)

A frame is one JSON object per network message. Payload values other than
strings are irrelevant to the codec logic, so they are a type parameter. -/

inductive JVal (α : Type) where
  | str (s : String)
  | other (a : α)
deriving DecidableEq

/-- A parsed JSON frame: either an object (field list) or some non-object
JSON document, which `json.Unmarshal` into a string-keyed map rejects. -/
inductive Frame (α : Type) where
  | obj (fields : List (String × JVal α))
  | nonObj
deriving DecidableEq

/-- Embeds the Go `Message` struct: a type tag plus a payload map that does
not itself hold the `type` field. -/
structure Message (α : Type) where
  typ : String
  payload : List (String × JVal α)
deriving DecidableEq

/-- Embeds Go `ParseMessage`: unmarshal must give an object, the `type`
field must exist and be a string, and the `type` field is deleted to leave
the payload. -/
def ParseMessage {α : Type} : Frame α → Option (Message α)
  | .nonObj => none
  | .obj fields =>
    match lookupA fields "type" with
    | none => none
    | some (.other _) => none
    | some (.str t) => some { typ := t, payload := removeA fields "type" }

/-- Embeds Go `Message.Encode`: fails when the payload already defines a
`type` key; otherwise emits the object holding `type` plus every payload
entry. -/
def Message.encode {α : Type} (m : Message α) : Except String (Frame α) :=
  match lookupA m.payload "type" with
  | some _ => .error "found type in payload"
  | none => .ok (.obj (("type", JVal.str m.typ) :: m.payload))

/-! ## FunctionTimer (core hub source file)

A `FunctionTimer` value holds an end time and a quit channel pointer. The
channel machinery is modelled by the one bit the claims need: whether the
timer goroutine is still waiting to receive on the quit channel. Both
`TickingTimer` and `SingleTimer` start a goroutine that receives on `quit`
exactly once and then returns, so an unbuffered send on `quit` succeeds at
most once; any later send has no receiver and blocks its caller forever. -/

structure FunctionTimer where
  /-- The End field: the time at which the timer expires. -/
  endT : Nat
  /-- Whether the quit field is a non-nil channel. `ExpiredTimer` gives nil;
  `TickingTimer` and `SingleTimer` give a fresh channel. -/
  quitOpen : Bool
deriving DecidableEq

/-- Embeds Go `ExpiredTimer`: End is the current time and quit is nil. -/
def ExpiredTimer (now : Nat) : FunctionTimer := ⟨now, false⟩

/-- Embeds Go `FunctionTimer.HasEnded`: quit is nil, or the current time is
strictly past End (`time.Now().After(timer.End)`). -/
def FunctionTimer.hasEnded (now : Nat) (t : FunctionTimer) : Bool :=
  !t.quitOpen || decide (t.endT < now)

/-- Embeds Go `FunctionTimer.TimeLeft`: zero once ended, otherwise the time
remaining until End. -/
def FunctionTimer.timeLeft (now : Nat) (t : FunctionTimer) : Nat :=
  if !t.quitOpen then 0 else t.endT - now

/-- Observable outcome of one call to Go `FunctionTimer.StopWith`. -/
inductive StopOutcome where
  /-- HasEnded returned true, so StopWith returned immediately. -/
  | noopReturn
  /-- The send on quit was received by the waiting timer goroutine. -/
  | delivered
  /-- The send on quit found no receiver: the caller blocks forever. -/
  | blocked
deriving DecidableEq

/-- Embeds Go `FunctionTimer.StopWith` (and hence `Stop`). The receiver is
a VALUE, i.e. a copy of the stored struct, so the assignment
`timer.quit = nil` inside the method mutates only the copy: the timer value
the caller retains is returned unchanged in every case. The second
component is the updated receiver-waiting bit of the timer goroutine, and
the third the outcome of the call. -/
def FunctionTimer.stopWith (now : Nat) (t : FunctionTimer) (receiverWaiting : Bool) :
    FunctionTimer × Bool × StopOutcome :=
  if t.hasEnded now then (t, receiverWaiting, .noopReturn)
  else if receiverWaiting then (t, false, .delivered)
  else (t, receiverWaiting, .blocked)

/-! ## CPS race single-player minigame (click_race source file) -/

/-- Embeds Go `MinigameResult`: an optional winning team index and an
optional disconnected player id. -/
structure MinigameResultM where
  winningTeam : Option Nat
  disconnected : Option Nat
deriving DecidableEq

/-- Embeds Go `SinglePlayerWin`, applied to the team index of the winning
player (`player.Team`). -/
def SinglePlayerWin (team : Nat) : MinigameResultM := ⟨some team, none⟩

/-- Embeds Go `SinglePlayerLoss`. -/
def SinglePlayerLoss : MinigameResultM := ⟨none, none⟩

/-- Embeds Go `state.endSp` of the click_race package, acting on the flag
store `*int` threshold. `scoreReported` is the entry of `s.reportedScores`
for the single participant; a missing entry reads as the Go zero value 0.
Returns the result passed to `ctx.End` and the store value after the call
(the store is mutated in place only on a win). -/
def endSp (scoreReported : Option Int) (playerTeam : Nat) (threshold : Int) :
    MinigameResultM × Int :=
  let score := scoreReported.getD 0
  if score > threshold then (SinglePlayerWin playerTeam, score)
  else (SinglePlayerLoss, threshold)

/-- The flag store across successive plays of the same cps_race_sp flag:
the store object is created once by `StoreCtor` when the flag is created
and each play of the minigame passes the same pointer, so the threshold a
play starts from is exactly the threshold the previous play left behind. -/
def playThreshold (threshold : Int) (plays : List Int) : Int :=
  plays.foldl (fun th sc => (endSp (some sc) 0 th).2) threshold

/-! ## Lobby membership and the lobby manager (Lobby, LobbyManager and
LobbyActivity source files)

Players are identified by numeric ids; a lobby holds its two teams as the
lists of member ids (Go: `Lobby.Teams[0/1].Players`). -/

abbrev PlayerId := Nat

structure CLobby where
  t0 : List PlayerId
  t1 : List PlayerId
deriving DecidableEq

/-- Embeds Go `Lobby.PlayerCount`. -/
def CLobby.playerCount (l : CLobby) : Nat := l.t0.length + l.t1.length

/-- Embeds Go `Lobby.AddClient` (the team placement part): a fresh player
joins team 0 when the teams are balanced or team 0 is smaller, and team 1
otherwise. -/
def CLobby.addClient (l : CLobby) (newPid : PlayerId) : CLobby :=
  if l.t0.length ≤ l.t1.length then { l with t0 := l.t0 ++ [newPid] }
  else { l with t1 := l.t1 ++ [newPid] }

/-- Embeds Go `Lobby` removal from the owning team
(`player.Team.RemovePlayer`); the player sits on exactly one team. -/
def CLobby.removePlayerL (l : CLobby) (p : PlayerId) : CLobby :=
  ⟨l.t0.filter (fun q => q ≠ p), l.t1.filter (fun q => q ≠ p)⟩

/-- The manager state: Go `LobbyManager.activities`, keyed by lobby id. -/
structure LobbyMgr where
  activities : List (String × CLobby)
deriving DecidableEq

/-- Embeds Go `LobbyManager.GetActivity`. -/
def LobbyMgr.getActivity (mgr : LobbyMgr) (id : String) : Option CLobby :=
  lookupA mgr.activities id

/-- Embeds Go `LobbyManager.createLobby` with the freshly generated unique
id supplied by the caller: a new empty lobby is registered at once. -/
def LobbyMgr.createLobby (mgr : LobbyMgr) (newId : String) : LobbyMgr :=
  ⟨mgr.activities ++ [(newId, ⟨[], []⟩)]⟩

/-- The reply message type Go `LobbyActivity.HandleJoinRequest` sends. -/
inductive JoinReply where
  | alreadyInLobby
  | lobbyFull
  | welcome
  | notFound
deriving DecidableEq

/-- Embeds Go `LobbyActivity.HandleJoinRequest` acting on the lobby:
a client that already owns a player is turned away, then a lobby with more
than five players is full; otherwise `AddClient` runs. `clientPlayer` is
the Player pointer of the requesting client; `newPid` is the id of the
player that would be created on success. -/
def joinStep (l : CLobby) (clientPlayer : Option PlayerId) (newPid : PlayerId) :
    CLobby × JoinReply :=
  if clientPlayer.isSome then (l, .alreadyInLobby)
  else if l.playerCount > 5 then (l, .lobbyFull)
  else (l.addClient newPid, .welcome)

/-- `HandleJoinRequest` viewed from the manager: locate the activity and
run `joinStep` on its lobby (the missing-id case is Go
`Client.doLobbyJoin` replying `lobby_not_found`). -/
def LobbyMgr.handleJoinRequest (mgr : LobbyMgr) (id : String)
    (clientPlayer : Option PlayerId) (newPid : PlayerId) : LobbyMgr × JoinReply :=
  match lookupA mgr.activities id with
  | none => (mgr, .notFound)
  | some l =>
    let r := joinStep l clientPlayer newPid
    (⟨updateA mgr.activities id r.1⟩, r.2)

/-- Embeds Go `LobbyManager.HandleLobbyCreate`: create the lobby under a
fresh id, then immediately run the join request of the creating client on
it. -/
def LobbyMgr.handleLobbyCreate (mgr : LobbyMgr) (newId : String)
    (clientPlayer : Option PlayerId) (newPid : PlayerId) : LobbyMgr × JoinReply :=
  (mgr.createLobby newId).handleJoinRequest newId clientPlayer newPid

/-- Embeds Go `Lobby.RemovePlayer` together with `LobbyManager.forget`:
remove the player from their team, and when the lobby has thereby become
empty delete its activity from the manager inside the same operation. -/
def LobbyMgr.removePlayer (mgr : LobbyMgr) (id : String) (p : PlayerId) : LobbyMgr :=
  match lookupA mgr.activities id with
  | none => mgr
  | some l =>
    let l1 := l.removePlayerL p
    if l1.playerCount = 0 then ⟨removeA mgr.activities id⟩
    else ⟨updateA mgr.activities id l1⟩

/-! ## The Ship (ship core source file)

Positions are 2D rational pairs (Go float64), flag ids are strings, and
the wall clock is an explicit natural-number `now` argument. -/

abbrev FlagId := String

structure Position where
  x : Rat
  y : Rat
deriving DecidableEq

/-- Embeds Go `Position.DistSq`. -/
def Position.distSq (p q : Position) : Rat :=
  (p.x - q.x) * (p.x - q.x) + (p.y - q.y) * (p.y - q.y)

/-- Embeds the Go constant `playerFlagReach`. -/
def playerFlagReach : Rat := 50

/-- Embeds the Go constant `flagReachSq` of `findNearestFlag`. -/
def flagReachSq : Rat := playerFlagReach * playerFlagReach

/-- Embeds Go `MinigamePrototype` (the fields the ship logic reads). -/
structure MinigamePrototype where
  name : String
  playerCount : Nat
  worth : Int
  cooldown : Nat
deriving DecidableEq

/-- Embeds Go `MinigamePrototype.TeamSize`: integer half of PlayerCount. -/
def MinigamePrototype.teamSize (p : MinigamePrototype) : Nat := p.playerCount / 2

/-- Embeds Go `MinigamePrototype.IndividualWorth`. -/
def MinigamePrototype.individualWorth (p : MinigamePrototype) : Rat :=
  if p.playerCount = 1 then (p.worth : Rat)
  else (p.worth : Rat) / (p.teamSize : Rat)

/-- Embeds the Go `activation` struct. -/
structure Activation where
  startTime : Nat
  lockedPlayers : List PlayerId
deriving DecidableEq

/-- Embeds the Go `flag` struct. The running minigame pointer is modelled
by its presence: contexts are in one-to-one correspondence with flags that
have a running minigame (`flagForMinigame`), and the participant set lives
in the player activity pointers. -/
structure Flag where
  pos : Position
  proto : MinigamePrototype
  minigame : Bool
  owner : Option Nat
  cooldown : FunctionTimer
  activation : Option Activation
deriving DecidableEq

/-- Embeds Go `flag.isActivated`. -/
def Flag.isActivated (f : Flag) : Bool := f.activation.isSome

/-- The start time of the activation; flags handed to this have an
activation, so the default is never read by guarded call sites. -/
def Flag.actStart (f : Flag) : Nat := (f.activation.map (·.startTime)).getD 0

/-- A player Activity pointer (Go `Player.Activity`): the lobby activity,
the ship, a minigame context (identified by its flag), or nil after the
player has been removed. -/
inductive PActivity where
  | lobbyAct
  | shipAct
  | minigameAct (id : FlagId)
  | nilAct
deriving DecidableEq

/-- Embeds the Go `Ship` struct together with the membership state it
navigates: the two team member lists of its lobby, each player Activity
pointer, the position map `pm.Map`, the flag map, and the individual score
map. -/
structure Ship where
  team0 : List PlayerId
  team1 : List PlayerId
  acts : List (PlayerId × PActivity)
  pmMap : List (PlayerId × Position)
  flags : List (FlagId × Flag)
  scores : List (PlayerId × Rat)
  isEndgame : Bool
  timer : FunctionTimer
deriving DecidableEq

/-- Embeds Go `Lobby.ForAllPlayers` order: team 0 members then team 1
members. -/
def Ship.lobbyPlayers (s : Ship) : List PlayerId := s.team0 ++ s.team1

/-- Embeds Go `Lobby.PlayerCount`. -/
def Ship.playerCount (s : Ship) : Nat := s.team0.length + s.team1.length

/-- The team index behind a Go `player.Team` pointer comparison. -/
def Ship.teamOf (s : Ship) (p : PlayerId) : Nat := if p ∈ s.team0 then 0 else 1

/-- The Activity pointer of a player. -/
def Ship.actOf (s : Ship) (p : PlayerId) : PActivity :=
  (lookupA s.acts p).getD .nilAct

/-- Embeds Go `Ship.ForAllShipPlayers` membership: lobby players whose
Activity is the ship. -/
def Ship.shipPlayers (s : Ship) : List PlayerId :=
  s.lobbyPlayers.filter (fun p => s.actOf p == .shipAct)

/-- Embeds the Go map read `ship.pm.Map[player]`; a missing key reads the
zero value. -/
def Ship.posOf (s : Ship) (p : PlayerId) : Position :=
  (lookupA s.pmMap p).getD ⟨0, 0⟩

/-- Embeds Go `flag.needsPlayer`: whether the locked players on the team
of `p` number fewer than the per-team requirement. The Go method panics on
a flag with no activation; every call site checks `isActivated` first, so
the none branch is never read there. -/
def Ship.needsPlayer (s : Ship) (f : Flag) (p : PlayerId) : Bool :=
  match f.activation with
  | none => false
  | some a =>
    (a.lockedPlayers.filter (fun q => s.teamOf q == s.teamOf p)).length < f.proto.teamSize

/-- Embeds Go `flag.hasAllPlayers`; call sites guarantee an activation is
present. -/
def Flag.hasAllPlayers (f : Flag) : Bool :=
  match f.activation with
  | none => false
  | some a => a.lockedPlayers.length == f.proto.playerCount

/-- Embeds Go `flagManager.flagForPlayer`: the first activated flag whose
locked set holds the player. -/
def Ship.flagForPlayer (s : Ship) (p : PlayerId) : Option FlagId :=
  (s.flags.find? (fun idf =>
    match idf.2.activation with
    | none => false
    | some a => p ∈ a.lockedPlayers)).map (·.1)

/-- One iteration of the Go `oldestFlagNeedingPlayer` loop: skip flags
with no activation; replace the candidate when it is absent or strictly
later than this flag, but only when this flag needs the player. -/
def oldestStep (s : Ship) (p : PlayerId) (oldest : Option (FlagId × Flag))
    (idf : FlagId × Flag) : Option (FlagId × Flag) :=
  if idf.2.isActivated then
    if (match oldest with
        | none => true
        | some o => decide (idf.2.actStart < o.2.actStart)) then
      if s.needsPlayer idf.2 p then some idf else oldest
    else oldest
  else oldest

/-- Embeds Go `flagManager.oldestFlagNeedingPlayer`. -/
def Ship.oldestFlagNeedingPlayer (s : Ship) (p : PlayerId) : Option (FlagId × Flag) :=
  s.flags.foldl (oldestStep s p) none

/-- One iteration of the Go `findNearestFlag` loop, carrying the running
nearest flag and its squared distance. -/
def nearestStep (ppos : Position) (acc : Option (FlagId × Flag × Rat))
    (idf : FlagId × Flag) : Option (FlagId × Flag × Rat) :=
  let dSq := ppos.distSq idf.2.pos
  if flagReachSq < dSq then acc
  else
    match acc with
    | none => some (idf.1, idf.2, dSq)
    | some prev => if dSq < prev.2.2 then some (idf.1, idf.2, dSq) else acc

/-- Embeds Go `Ship.findNearestFlag`: the in-reach flag with the least
squared distance to the player, if any flag is within reach. -/
def Ship.findNearestFlag (s : Ship) (p : PlayerId) : Option (FlagId × Flag) :=
  (s.flags.foldl (nearestStep (s.posOf p)) none).map (fun x => (x.1, x.2.1))

/-- An outbound message of the ship, reduced to its recipient and its type
tag; payload fields carry no information the verified claims consult. -/
structure Msg where
  dest : PlayerId
  typ : String
deriving DecidableEq

def Ship.getFlag (s : Ship) (id : FlagId) : Option Flag := lookupA s.flags id

def Ship.setFlag (s : Ship) (id : FlagId) (f : Flag) : Ship :=
  { s with flags := updateA s.flags id f }

def Ship.setAct (s : Ship) (p : PlayerId) (a : PActivity) : Ship :=
  { s with acts := updateA s.acts p a }

/-- Embeds Go `Ship.addPlayerToFlag`: insert the player into the locked
set and notify the player and their ship peers. The Go method panics when
the flag is inactive or unknown; call sites guard both, so those branches
return the state unchanged. -/
def Ship.addPlayerToFlag (s : Ship) (id : FlagId) (p : PlayerId) : Ship × List Msg :=
  match s.getFlag id with
  | none => (s, [])
  | some f =>
    match f.activation with
    | none => (s, [])
    | some a =>
      let s1 := s.setFlag id
        { f with activation := some { a with lockedPlayers := a.lockedPlayers ++ [p] } }
      let peerMsgs := (s1.shipPlayers.filter (fun q => q ≠ p)).map
        (fun q => (⟨q, "ship_peer_lock_set"⟩ : Msg))
      (s1, ⟨p, "ship_player_lock_set"⟩ :: peerMsgs)

/-- One insertion into the eligibility grouping map built by
`findEligiblePlayersForFlags`. -/
def addToGroups (groups : List (FlagId × List PlayerId)) (id : FlagId) (p : PlayerId) :
    List (FlagId × List PlayerId) :=
  match lookupA groups id with
  | some ps => updateA groups id (ps ++ [p])
  | none => groups ++ [(id, [p])]

/-- Embeds Go `Ship.findEligiblePlayersForFlags`: every ship player not
locked to any flag is grouped under the earliest-activated flag that needs
them, when one exists. -/
def Ship.findEligiblePlayersForFlags (s : Ship) : List (FlagId × List PlayerId) :=
  s.shipPlayers.foldl (fun groups p =>
    if (s.flagForPlayer p).isSome then groups
    else
      match s.oldestFlagNeedingPlayer p with
      | none => groups
      | some idf => addToGroups groups idf.1 p) []

/-- Embeds Go `slices.DeleteFunc(players, ...)` inside the lock loop of
`addPlayersToFlags`: drop the player just added and everyone the flag no
longer needs. -/
def delRemaining (s1 : Ship) (id : FlagId) (p : PlayerId) (players : List PlayerId) :
    List PlayerId :=
  players.filter (fun pl =>
    !(pl == p ||
      !(match lookupA s1.flags id with
        | some f1 => s1.needsPlayer f1 pl
        | none => false)))

/-- Embeds Go `startMinigameForFlag`: notify everyone, mark the minigame
as running, move the locked players into the minigame activity, clear the
activation, and run the minigame Start (whose minigame-specific sends are
abstracted to one marker message per participant). The unknown-flag and
missing-activation branches are unreachable at guarded call sites. -/
def Ship.startMinigameForFlag (s : Ship) (id : FlagId) : Ship × List Msg :=
  match s.getFlag id with
  | none => (s, [])
  | some f =>
    match f.activation with
    | none => (s, [])
    | some a =>
      let joinMsgs := a.lockedPlayers.map (fun p => (⟨p, "ship_minigame_join"⟩ : Msg))
      let stayMsgs := (s.shipPlayers.filter (fun p => !a.lockedPlayers.contains p)).flatMap
        (fun p => a.lockedPlayers.map (fun _ => (⟨p, "ship_peer_minigame_join"⟩ : Msg)))
      let s1 := s.setFlag id { f with minigame := true, activation := none }
      let s2 := a.lockedPlayers.foldl (fun st p => st.setAct p (.minigameAct id)) s1
      let startMsgs := a.lockedPlayers.map (fun p => (⟨p, "minigame_start"⟩ : Msg))
      (s2, joinMsgs ++ stayMsgs ++ startMsgs)

/-- Embeds the inner lock loop of Go `addPlayersToFlags`: while eligible
players remain, pick one at random (the oracle `rnd` supplies each
`rand.Int()` value), lock them to the flag, and delete from the slice that
player and everyone no longer needed. -/
def Ship.lockLoop (s : Ship) (id : FlagId) (players : List PlayerId) (rnd : List Nat) :
    Ship × List Msg × List Nat :=
  match players with
  | [] => (s, [], rnd)
  | q :: qs =>
    let r := rnd.headD 0
    let i : Fin (q :: qs).length := ⟨r % (q :: qs).length, Nat.mod_lt r (Nat.succ_pos qs.length)⟩
    let p := (q :: qs).get i
    let step1 := s.addPlayerToFlag id p
    let remaining := delRemaining step1.1 id p (q :: qs)
    let rest := step1.1.lockLoop id remaining rnd.tail
    (rest.1, step1.2 ++ rest.2.1, rest.2.2)
termination_by players.length
decreasing_by
  have hgen : ∀ (pr : PlayerId → Bool) (l : List PlayerId),
      p ∈ l → pr p = false → (l.filter pr).length < l.length := by
    intro pr l hl hp
    induction l with
    | nil => cases hl
    | cons a t ih =>
      rw [List.filter_cons]
      by_cases hc : pr a = true
      · have hat : p ∈ t := by
          rcases List.mem_cons.mp hl with h | h
          · rw [h] at hp; rw [hp] at hc; cases hc
          · exact h
        simp only [hc, if_true, List.length_cons]
        exact Nat.succ_lt_succ (ih hat)
      · simp only [hc, if_false, List.length_cons]
        exact Nat.lt_succ_of_le (List.length_filter_le _ t)
  have hpf : ∀ (z : Bool), (!((p == p) || z)) = false := by
    intro z
    simp
  exact hgen _ (q :: qs) (List.get_mem (q :: qs) i.1 i.2) (hpf _)

/-- Embeds one entry of the Go `addPlayersToFlags` range loop: run the
lock loop for a flag and start its minigame when it has every player. -/
def Ship.processGroup (s : Ship) (id : FlagId) (players : List PlayerId) (rnd : List Nat) :
    Ship × List Msg × List Nat :=
  let locked := s.lockLoop id players rnd
  match locked.1.getFlag id with
  | none => locked
  | some f1 =>
    if f1.hasAllPlayers then
      let started := locked.1.startMinigameForFlag id
      (started.1, locked.2.1 ++ started.2, locked.2.2)
    else locked

/-- Embeds Go `Ship.addPlayersToFlags`: a no-op during endgame; otherwise
group the free players and process each group. -/
def Ship.addPlayersToFlags (s : Ship) (rnd : List Nat) : Ship × List Msg × List Nat :=
  if s.isEndgame then (s, [], rnd)
  else
    s.findEligiblePlayersForFlags.foldl
      (fun acc g =>
        let r := acc.1.processGroup g.1 g.2 acc.2.2
        (r.1, acc.2.1 ++ r.2.1, r.2.2))
      (s, [], rnd)

/-- Embeds Go `Ship.activateFlag`: single-player flags lock the player
silently and start at once; multiplayer flags get a fresh activation, lock
the requesting player with notifications, then try to fill every flag. -/
def Ship.activateFlag (now : Nat) (s : Ship) (p : PlayerId) (id : FlagId) (rnd : List Nat) :
    Ship × List Msg × List Nat :=
  match s.getFlag id with
  | none => (s, [], rnd)
  | some f =>
    if f.proto.playerCount = 1 then
      let s1 := s.setFlag id { f with activation := some ⟨now, [p]⟩ }
      let started := s1.startMinigameForFlag id
      (started.1, started.2, rnd)
    else
      let s1 := s.setFlag id { f with activation := some ⟨now, []⟩ }
      let lockRes := s1.addPlayerToFlag id p
      let addRes := lockRes.1.addPlayersToFlags rnd
      (addRes.1, lockRes.2 ++ addRes.2.1, addRes.2.2)

/-- Embeds Go `Ship.tryActivateFlag`: the chain of rejection checks, each
answered by one typed reply to the requesting player, ending in
`activateFlag` when every check passes. -/
def Ship.tryActivateFlag (now : Nat) (s : Ship) (p : PlayerId) (rnd : List Nat) :
    Ship × List Msg × List Nat :=
  if s.isEndgame then (s, [⟨p, "ship_no_flags_in_endgame"⟩], rnd)
  else
    match s.findNearestFlag p with
    | none => (s, [⟨p, "ship_no_flags_in_reach"⟩], rnd)
    | some idf =>
      if (s.flagForPlayer p).isSome then (s, [⟨p, "ship_player_locked"⟩], rnd)
      else if idf.2.owner == some (s.teamOf p) then
        (s, [⟨p, "ship_flag_already_captured"⟩], rnd)
      else if idf.2.minigame then (s, [⟨p, "ship_flag_in_use"⟩], rnd)
      else if !(idf.2.cooldown.hasEnded now) then
        (s, [⟨p, "ship_flag_cooling_down"⟩], rnd)
      else if idf.2.isActivated then (s, [⟨p, "ship_flag_already_activated"⟩], rnd)
      else s.activateFlag now p idf.1 rnd

/-- Embeds Go `flagManager.areAnyMinigamesOngoing`. -/
def Ship.areAnyMinigamesOngoing (s : Ship) : Bool :=
  s.flags.any (fun idf => idf.2.minigame)

/-- Embeds Go `flagManager.teamScores`: total token worth of the flags
each team owns. -/
def Ship.teamScores (s : Ship) : Int × Int :=
  s.flags.foldl
    (fun acc idf =>
      match idf.2.owner with
      | none => acc
      | some t =>
        if t = 0 then (acc.1 + idf.2.proto.worth, acc.2)
        else (acc.1, acc.2 + idf.2.proto.worth))
    (0, 0)

/-- Embeds Go `flagManager.clearForEndgame`: drop every activation and
stop every cooldown ticker. `cooldown.Stop` has a value receiver, so the
stored cooldown struct itself is unchanged (see `stopWith`); the send on
its quit channel only silences future ticks. -/
def Ship.clearForEndgame (s : Ship) : Ship :=
  { s with flags := s.flags.map (fun idf => (idf.1, { idf.2 with activation := none })) }

/-- Embeds Go `Ship.end` (named endShip here because `end` is reserved):
when players remain, send everyone the final scores and move them all back
to the lobby activity. The recorder and the lobby-activity lookup
(which panics only when the non-empty lobby has no activity) are not part
of any claim. -/
def Ship.endShip (s : Ship) : Ship × List Msg :=
  if s.playerCount = 0 then (s, [])
  else
    let msgs := s.lobbyPlayers.map (fun p => (⟨p, "ship_game_end"⟩ : Msg))
    let s1 := s.lobbyPlayers.foldl (fun st p => st.setAct p .lobbyAct) s
    (s1, msgs)

/-- Embeds Go `Ship.tryEnd`: finalize exactly when no minigame is
ongoing. -/
def Ship.tryEnd (s : Ship) : Ship × List Msg :=
  if s.areAnyMinigamesOngoing then (s, [])
  else s.endShip

/-- Embeds Go `Ship.enterEndgame`: set the endgame bit, stop the ship
timer (`timer.Stop` has a value receiver, so the stored timer field keeps
its non-nil quit handle and its old End time), clear the flags, notify
every lobby member, and try to end the stage. -/
def Ship.enterEndgame (s : Ship) : Ship × List Msg :=
  let s1 := { s with isEndgame := true }
  let s2 := s1.clearForEndgame
  let notifyMsgs := s2.lobbyPlayers.map (fun p => (⟨p, "ship_endgame"⟩ : Msg))
  let ended := s2.tryEnd
  (ended.1, notifyMsgs ++ ended.2)

/-- Embeds Go `Ship.tryEnterEndgame`. -/
def Ship.tryEnterEndgame (s : Ship) : Ship × List Msg :=
  if s.isEndgame then s.tryEnd else s.enterEndgame

/-- Embeds Go `Ship.triggerEndgame`: optionally announce the leaver, then
enter (or re-try) the endgame. -/
def Ship.triggerEndgame (s : Ship) (leaver : Option PlayerId) : Ship × List Msg :=
  let leaveMsgs :=
    match leaver with
    | none => []
    | some _ => s.lobbyPlayers.map (fun p => (⟨p, "ship_peer_left"⟩ : Msg))
  let ended := s.tryEnterEndgame
  (ended.1, leaveMsgs ++ ended.2)

/-- Embeds Go `Ship.removePlayer`: delete the position and score entries,
null the Activity pointer, remove the player from their team (severing the
player/client link happens at the lobby layer), and trigger the endgame.
The Go method panics unless the player is in the ship activity; call sites
arrange that. -/
def Ship.removePlayer (s : Ship) (p : PlayerId) : Ship × List Msg :=
  let s1 := { s with pmMap := removeA s.pmMap p, scores := removeA s.scores p }
  let s2 := s1.setAct p .nilAct
  let s3 := { s2 with
    team0 := s2.team0.filter (fun q => q ≠ p),
    team1 := s2.team1.filter (fun q => q ≠ p) }
  s3.triggerEndgame (some p)

/-- Embeds Go `Ship.startCooldown`: install a fresh `TickingTimer` ending
at now plus the prototype cooldown (the tick messages it later schedules
arrive in later dispatch turns). -/
def Ship.startCooldown (now : Nat) (s : Ship) (id : FlagId) : Ship :=
  match s.getFlag id with
  | none => s
  | some f => s.setFlag id { f with cooldown := ⟨now + f.proto.cooldown, true⟩ }

/-- Embeds Go `Ship.spreadPlayers`. A single player is placed below the
centre exactly as in the source; the multi-player case places players on a
trigonometric arc whose sine and cosine values are not rational, so the
model records only that each participant is repositioned at the centre.
No verified claim reads the coordinates this function writes. -/
def Ship.spreadPlayers (s : Ship) (around : Position) (dist : Rat)
    (ps : List PlayerId) : Ship :=
  match ps with
  | [] => s
  | [p] => { s with pmMap := updateA s.pmMap p ⟨around.x, around.y + dist⟩ }
  | _ => ps.foldl (fun st p => { st with pmMap := updateA st.pmMap p around }) s

/-- Embeds Go `Ship.endMinigame`. The context argument is replaced by the
flag it is attached to (`flagForMinigame`). Order follows the source:
start the cooldown unless in endgame, retain a winning team as owner,
announce the result to ship players, clear the minigame pointer, collect
the still-connected participants, credit each winner's share, reposition
the participants (`rand.Shuffle` only permutes the repositioning order and
is modelled as the identity permutation), welcome each one back, then
either re-check the endgame when the ship timer has ended, remove a
disconnected player, or fill flags with the newly freed players. -/
def Ship.endMinigame (now : Nat) (s : Ship) (id : FlagId) (result : MinigameResultM)
    (rnd : List Nat) : Ship × List Msg × List Nat :=
  let s1 := if !s.isEndgame then s.startCooldown now id else s
  let s2 :=
    match result.winningTeam with
    | some t =>
      match s1.getFlag id with
      | some f => s1.setFlag id { f with owner := some t }
      | none => s1
    | none => s1
  let resultMsgs := s2.shipPlayers.map (fun p => (⟨p, "ship_minigame_finished"⟩ : Msg))
  let s3 :=
    match s2.getFlag id with
    | some f => s2.setFlag id { f with minigame := false }
    | none => s2
  let connected := s3.lobbyPlayers.filter
    (fun p => s3.actOf p == .minigameAct id && some p ≠ result.disconnected)
  let indWorth :=
    match s3.getFlag id with
    | some f => f.proto.individualWorth
    | none => 0
  let s4 := connected.foldl
    (fun st p =>
      if some (st.teamOf p) = result.winningTeam then
        { st with scores := updateA st.scores p ((lookupA st.scores p).getD 0 + indWorth) }
      else st)
    s3
  let flagPos :=
    match s4.getFlag id with
    | some f => f.pos
    | none => (⟨0, 0⟩ : Position)
  let s5 := s4.spreadPlayers flagPos 20 connected
  let wb := connected.foldl
    (fun (acc : Ship × List Msg) p =>
      let st := (acc.1.setAct p .shipAct)
      let peerMsgs := (st.shipPlayers.filter (fun q => q ≠ p)).map
        (fun q => (⟨q, "ship_welcome_back_peer"⟩ : Msg))
      (st, acc.2 ++ (⟨p, "ship_welcome_back"⟩ : Msg) :: peerMsgs))
    (s5, [])
  let afterEnd :=
    if wb.1.timer.hasEnded now then wb.1.triggerEndgame none else (wb.1, [])
  match result.disconnected with
  | some d =>
    let s8 := afterEnd.1.setAct d .shipAct
    let removed := s8.removePlayer d
    (removed.1, resultMsgs ++ wb.2 ++ afterEnd.2 ++ removed.2, rnd)
  | none =>
    let added := afterEnd.1.addPlayersToFlags rnd
    (added.1, resultMsgs ++ wb.2 ++ afterEnd.2 ++ added.2.1, added.2.2)

/-! ## Inbound messages and dispatch (ship and position manager) -/

/-- A payload value as seen by `Message.GetNumber`: a JSON number or any
other JSON value. -/
inductive GoVal where
  | num (q : Rat)
  | other
deriving DecidableEq

/-- An inbound message: its type tag and payload fields. -/
structure InMsg where
  typ : String
  payload : List (String × GoVal)
deriving DecidableEq

/-- Embeds Go `Message.GetNumber`: the field must exist and be a number. -/
def InMsg.getNumber (m : InMsg) (k : String) : Option Rat :=
  match lookupA m.payload k with
  | some (.num q) => some q
  | _ => none

/-- The position-manager message-type lead-in the ship uses (Go
`NewPositionManager` argument). -/
def movPre : String := "ship_mov_"

/-- Character-level test of whether `s` starts with `pre`; used so that
the Go `strings.TrimPrefix` comparison evaluates inside proofs. -/
def strStarts (s pre : String) : Bool := pre.data.isPrefixOf s.data

/-- Drop the first `n` characters of `s` (the remainder after Go
`strings.TrimPrefix` succeeds). -/
def strDrop (s : String) (n : Nat) : String := ⟨s.data.drop n⟩

/-- Embeds Go `PositionManager.doPositionUpdate` followed by
`doSetPosition` and `notifyNewPosition` for the ship position manager:
bad or missing coordinates earn a typed reply; otherwise the position is
stored and activity peers are notified. -/
def Ship.doPositionUpdate (s : Ship) (p : PlayerId) (m : InMsg) : Ship × List Msg :=
  match m.getNumber "x" with
  | none => (s, [⟨p, movPre ++ "position_update_bad_x_error"⟩])
  | some x =>
    match m.getNumber "y" with
    | none => (s, [⟨p, movPre ++ "position_update_bad_y_error"⟩])
    | some y =>
      let s1 := { s with pmMap := updateA s.pmMap p ⟨x, y⟩ }
      let peerMsgs := (s1.lobbyPlayers.filter
          (fun q => q ≠ p && s1.actOf q == s1.actOf p)).map
        (fun q => (⟨q, movPre ++ "peer_position_update"⟩ : Msg))
      (s1, peerMsgs)

/-- Embeds Go `PositionManager.HandleMessage` for the ship position
manager: a type without the lead-in is not handled; a type with the
lead-in but an unknown remainder is handled by returning an error and
sending nothing; `position_update` is processed. -/
def Ship.pmHandleMessage (s : Ship) (p : PlayerId) (m : InMsg) :
    Bool × Ship × List Msg × Option String :=
  if !(strStarts m.typ movPre) then (false, s, [], none)
  else
    let rest := strDrop m.typ movPre.length
    if rest ≠ "position_update" then
      (true, s, [], some ("position manager does not recognise " ++ rest))
    else
      let done := s.doPositionUpdate p m
      (true, done.1, done.2, none)

/-- Embeds Go `Ship.HandleMessage`. `Client.Send` fails only when message
encoding fails, and no reply built here carries a `type` payload key, so
sends return nil; the only non-nil error of this handler is the one the
position manager produces. -/
def Ship.handleMessage (now : Nat) (s : Ship) (p : PlayerId) (m : InMsg)
    (rnd : List Nat) : Ship × List Msg × Option String × List Nat :=
  if m.typ = "ship_flag_activate" then
    let r := s.tryActivateFlag now p rnd
    (r.1, r.2.1, none, r.2.2)
  else if m.typ = "lobby_bye" then
    let r := s.removePlayer p
    (r.1, r.2, none, rnd)
  else
    let r := s.pmHandleMessage p m
    if r.1 then (r.2.1, r.2.2.1, r.2.2.2, rnd)
    else (r.2.1, [⟨p, "ship_unknown_message_type_error"⟩], none, rnd)

/-! ## Claim-side conditions and concrete scenarios -/

/-- The activation preconditions as the specification states them: not in
endgame, a nearest reachable flag exists, the player is not locked to any
flag, and that flag is not owned by the player team, not running, not
cooling down, and not already activated. -/
def Ship.activateConds (now : Nat) (s : Ship) (p : PlayerId) : Bool :=
  !s.isEndgame &&
  (match s.findNearestFlag p with
   | none => false
   | some idf =>
     !(s.flagForPlayer p).isSome &&
     !(idf.2.owner == some (s.teamOf p)) &&
     !idf.2.minigame &&
     idf.2.cooldown.hasEnded now &&
     !idf.2.isActivated)

/-- The typed rejection replies `tryActivateFlag` can send. -/
def activateErrTypes : List String :=
  ["ship_no_flags_in_endgame", "ship_no_flags_in_reach", "ship_player_locked",
   "ship_flag_already_captured", "ship_flag_in_use", "ship_flag_cooling_down",
   "ship_flag_already_activated"]

/-- The rps_1v1 prototype as registered at startup (flag `blah`). -/
def c1Proto : MinigamePrototype := ⟨"rps_1v1", 2, 1, 10⟩

/-- Flag `blah` while its 1v1 minigame is running. -/
def c1Flag : Flag :=
  { pos := ⟨0, 256⟩, proto := c1Proto, minigame := true, owner := none,
    cooldown := ⟨0, false⟩, activation := none }

/-- A ship that entered the endgame early: a fifth player disconnected at
time 100 while the `blah` minigame was running, so `isEndgame` holds, the
countdown timer still shows End 600 with its quit handle (the value-
receiver `Stop` could not null it), players 1 and 2 are inside the
minigame, and players 3 and 4 wait in the ship. -/
def c1Ship : Ship :=
  { team0 := [1, 3], team1 := [2, 4],
    acts := [(1, .minigameAct "blah"), (2, .minigameAct "blah"),
             (3, .shipAct), (4, .shipAct)],
    pmMap := [(1, ⟨0, 0⟩), (2, ⟨0, 0⟩), (3, ⟨0, 0⟩), (4, ⟨0, 0⟩)],
    flags := [("blah", c1Flag)],
    scores := [(1, 0), (2, 0), (3, 0), (4, 0)],
    isEndgame := true,
    timer := ⟨600, true⟩ }

/-- The `blah` minigame ends at time 200 (before the countdown deadline
600) with team 0 winning, no disconnection. -/
def c1Run : Ship × List Msg × List Nat :=
  c1Ship.endMinigame 200 "blah" ⟨some 0, none⟩ []

/-- A one-player ship used to exercise the message dispatch path. -/
def c4Ship : Ship :=
  { team0 := [7], team1 := [],
    acts := [(7, .shipAct)],
    pmMap := [(7, ⟨0, 0⟩)],
    flags := [],
    scores := [(7, 0)],
    isEndgame := false,
    timer := ⟨600, true⟩ }

/-- A manager holding one lobby AAAA whose sole player (id 1) belongs to
the requesting client. -/
def c8Mgr : LobbyMgr := ⟨[("AAAA", ⟨[1], []⟩)]⟩

/-- The lobby-create request of that already-in-lobby client: the fresh
lobby id is BBBB and the player that would be created has id 2. -/
def c8Run : LobbyMgr × JoinReply := c8Mgr.handleLobbyCreate "BBBB" (some 1) 2

/-- A full six-player lobby under id CCCC. -/
def c9Lobby : CLobby := ⟨[1, 2, 3], [4, 5, 6]⟩

def c9Mgr : LobbyMgr := ⟨[("CCCC", c9Lobby)]⟩

/-- A join request for the full lobby from a client that is already in a
lobby (their player id is 9). -/
def c9Run : LobbyMgr × JoinReply := c9Mgr.handleJoinRequest "CCCC" (some 9) 10

/-- A two-player ship with a single idle 1v1 flag at the origin; player 1
stands on the flag, player 2 stands far away. -/
def cwShip : Ship :=
  { team0 := [1], team1 := [2],
    acts := [(1, .shipAct), (2, .shipAct)],
    pmMap := [(1, ⟨0, 0⟩), (2, ⟨1000, 0⟩)],
    flags := [("f1",
      { pos := ⟨0, 0⟩, proto := ⟨"rps_1v1", 2, 1, 10⟩, minigame := false,
        owner := none, cooldown := ⟨0, false⟩, activation := none })],
    scores := [(1, 0), (2, 0)],
    isEndgame := false,
    timer := ⟨600, true⟩ }

/-- The flag with the given id exists and is activated or running; eleven
lines of `activateFlag` establish this for the requested flag and every
later mutation of this dispatch turn preserves it. -/
def BusyAt (id : FlagId) (s : Ship) : Prop :=
  ∃ f2, s.getFlag id = some f2 ∧ (f2.activation.isSome || f2.minigame) = true

def c6Proto : MinigamePrototype := ⟨"cps_race_1v1", 2, 1, 10⟩

/-- A ship with two activated recruiting flags: `fa` activated at time 10
and `fb` activated at time 5, with two free ship players 3 and 4. -/
def c6Ship : Ship :=
  { team0 := [3], team1 := [4],
    acts := [(3, .shipAct), (4, .shipAct)],
    pmMap := [(3, ⟨0, 0⟩), (4, ⟨0, 0⟩)],
    flags := [("fa",
      { pos := ⟨0, 0⟩, proto := c6Proto, minigame := false, owner := none,
        cooldown := ⟨0, false⟩, activation := some ⟨10, []⟩ }),
      ("fb",
      { pos := ⟨0, 0⟩, proto := c6Proto, minigame := false, owner := none,
        cooldown := ⟨0, false⟩, activation := some ⟨5, []⟩ })],
    scores := [(3, 0), (4, 0)],
    isEndgame := false,
    timer := ⟨600, true⟩ }

/-! ## Association list lemmas -/

theorem lookupA_updateA_self {κ β : Type} [DecidableEq κ] (l : List (κ × β)) (k : κ) (v : β) :
    lookupA (updateA l k v) k = some v := by
  induction l with
  | nil => simp [lookupA, updateA]
  | cons h t ih =>
    by_cases hk : h.1 = k
    · simp [lookupA, updateA, hk]
    · simp [lookupA, updateA, hk, ih]

theorem lookupA_updateA_ne {κ β : Type} [DecidableEq κ] (l : List (κ × β)) (k k2 : κ) (v : β)
    (hne : k2 ≠ k) : lookupA (updateA l k v) k2 = lookupA l k2 := by
  have hkk : ¬(k = k2) := fun h => hne h.symm
  induction l with
  | nil =>
    simp only [updateA, lookupA]
    rw [if_neg hkk]
  | cons h t ih =>
    by_cases hk : h.1 = k
    · simp only [updateA, hk, if_true, lookupA]
      rw [if_neg hkk, if_neg hkk]
    · simp only [updateA, hk, if_false, lookupA]
      by_cases hk2 : h.1 = k2
      · simp [hk2]
      · simp [hk2, ih]

theorem updateA_self_eq {κ β : Type} [DecidableEq κ] (l : List (κ × β)) (k : κ) (v : β)
    (hl : lookupA l k = some v) : updateA l k v = l := by
  induction l with
  | nil => simp [lookupA] at hl
  | cons h t ih =>
    by_cases hk : h.1 = k
    · simp only [lookupA, hk, if_true, Option.some.injEq] at hl
      simp only [updateA, hk, if_true]
      rw [← hl, ← hk]
    · simp only [lookupA, hk, if_false] at hl
      simp [updateA, hk, ih hl]

theorem lookupA_mem {κ β : Type} [DecidableEq κ] (l : List (κ × β)) (k : κ) (v : β)
    (hl : lookupA l k = some v) : (k, v) ∈ l := by
  induction l with
  | nil => simp [lookupA] at hl
  | cons h t ih =>
    by_cases hk : h.1 = k
    · simp only [lookupA, hk, if_true, Option.some.injEq] at hl
      exact List.mem_cons.mpr (Or.inl (Prod.ext_iff.mpr ⟨hk, hl⟩).symm)
    · simp only [lookupA, hk, if_false] at hl
      exact List.mem_cons_of_mem _ (ih hl)

theorem lookupA_removeA_self {κ β : Type} [DecidableEq κ] (l : List (κ × β)) (k : κ)
    (hnd : (l.map Prod.fst).Nodup) : lookupA (removeA l k) k = none := by
  induction l with
  | nil => simp [removeA, lookupA]
  | cons h t ih =>
    simp only [List.map_cons, List.nodup_cons] at hnd
    by_cases hk : h.1 = k
    · simp only [removeA, hk, if_true]
      cases hv : lookupA t k with
      | none => exact rfl
      | some v =>
        exfalso
        have hm := lookupA_mem t k v hv
        have : k ∈ t.map Prod.fst := List.mem_map_of_mem Prod.fst hm
        rw [hk] at hnd
        exact hnd.1 this
    · simp [removeA, hk, lookupA, ih hnd.2]

theorem lookupA_eq_of_mem_nodup {κ β : Type} [DecidableEq κ] (l : List (κ × β)) (k : κ) (v : β)
    (hm : (k, v) ∈ l) (hnd : (l.map Prod.fst).Nodup) : lookupA l k = some v := by
  induction l with
  | nil => cases hm
  | cons h t ih =>
    simp only [List.map_cons, List.nodup_cons] at hnd
    rcases List.mem_cons.mp hm with he | ht
    · rw [← he]
      simp [lookupA]
    · have hk : h.1 ≠ k := by
        intro hk
        have : k ∈ t.map Prod.fst := List.mem_map_of_mem Prod.fst ht
        rw [hk] at hnd
        exact hnd.1 this
      simp [lookupA, hk, ih ht hnd.2]

/-! ## Resolution of the claims -/

/-- C1 (code_bug): with the Ship already in endgame after an early
disconnection (countdown End 600 still ahead at time 200, quit handle
still non-nil because `Stop` mutated only a copy), a minigame that ends
with a team win leaves zero minigames ongoing, yet the run emits no
`ship_game_end` and leaves the participants in the ship activity: the
re-attempt at finalization the specification promises never happens in
that dispatch turn, because `endMinigame` guards it with
`ship.timer.HasEnded()`, which is still false. A direct call of `tryEnd`
on the resulting state does finalize, showing the deferred finalization
was ready to succeed. -/
theorem C1_endgame_finalization_not_reattempted :
    c1Run.1.areAnyMinigamesOngoing = false ∧
    c1Run.1.isEndgame = true ∧
    "ship_game_end" ∉ c1Run.2.1.map Msg.typ ∧
    c1Run.1.actOf 1 = .shipAct ∧ c1Run.1.actOf 2 = .shipAct ∧
    "ship_game_end" ∈ (c1Run.1.tryEnd).2.map Msg.typ := by
  decide

/-- C2 (code_bug): `StopWith` has a value receiver, so the caller keeps a
timer whose quit handle is still non-nil after a first successful stop.
For a timer ending at 100 stopped at time 0: the first stop is delivered
to the waiting timer goroutine, but a second stop of the very value the
caller retains sends on the quit channel again and, with no receiver left,
blocks forever instead of being a no-op; stopping after expiry (time 200,
or an `ExpiredTimer`) is a no-op as claimed. -/
theorem C2_timer_stop_not_idempotent :
    FunctionTimer.stopWith 0 ⟨100, true⟩ true = (⟨100, true⟩, false, .delivered) ∧
    (FunctionTimer.stopWith 0 (FunctionTimer.stopWith 0 ⟨100, true⟩ true).1
      (FunctionTimer.stopWith 0 ⟨100, true⟩ true).2.1).2.2 = .blocked ∧
    (FunctionTimer.stopWith 200 ⟨100, true⟩ false).2.2 = .noopReturn ∧
    (FunctionTimer.stopWith 5 (ExpiredTimer 0) false).2.2 = .noopReturn := by
  decide

/-- C4 counterexample: the message type `ship_mov_bogus` is recognized by
neither the ship nor the position manager, yet `HandleMessage` returns a
non-nil error and sends no reply at all, contradicting the claim that
every unrecognized type earns a typed reply and a nil error. -/
theorem C4_unrecognized_mov_message_returns_error :
    (c4Ship.handleMessage 0 7 ⟨"ship_mov_bogus", []⟩ []).2.2.1.isSome = true ∧
    (c4Ship.handleMessage 0 7 ⟨"ship_mov_bogus", []⟩ []).2.1 = [] := by
  decide

/-- C8 counterexample: a `lobby_create` request from a client that is
already in a lobby registers a fresh lobby and then rejects the automatic
join, leaving a lobby with zero players registered with the manager and
reachable for later joins outside any removal operation. -/
theorem C8_empty_lobby_observable_after_create :
    c8Run.2 = JoinReply.alreadyInLobby ∧
    c8Run.1.getActivity "BBBB" = some ⟨[], []⟩ ∧
    (c8Run.1.getActivity "BBBB").map CLobby.playerCount = some 0 := by
  decide

/-- C9 counterexample: a join request for a six-player lobby coming from a
client that is already in some lobby is answered with
`client_already_in_lobby_error`, not with `lobby_full`, because the
already-in-lobby check precedes the capacity check. -/
theorem C9_full_lobby_join_reply_not_lobby_full :
    c9Lobby.playerCount = 6 ∧
    c9Run.2 ≠ JoinReply.lobbyFull ∧
    c9Run.2 = JoinReply.alreadyInLobby ∧
    c9Run.1 = c9Mgr := by
  decide

/-- C5: encoding a message whose payload has no `type` key and parsing
the resulting frame yields the same message back (same type string, same
payload map), and encoding fails for every message whose payload defines a
`type` key. -/
theorem C5_encode_parse_roundtrip :
    (∀ (α : Type) (m : Message α), lookupA m.payload "type" = none →
      ∃ fr, m.encode = .ok fr ∧ ParseMessage fr = some m) ∧
    (∀ (α : Type) (m : Message α), (lookupA m.payload "type").isSome = true →
      ∃ e, m.encode = .error e) := by
  constructor
  · intro α m hl
    refine ⟨.obj (("type", JVal.str m.typ) :: m.payload), ?_, ?_⟩
    · simp [Message.encode, hl]
    · simp [ParseMessage, lookupA, removeA]
  · intro α m hl
    obtain ⟨v, hv⟩ := Option.isSome_iff_exists.mp hl
    exact ⟨"found type in payload", by simp [Message.encode, hv]⟩

/-- Witness for C5 at two concrete messages over Nat payload values. -/
theorem C5_encode_parse_roundtrip_witness :
    (∃ fr, (Message.mk "ping" [("seq", JVal.other 3)] : Message Nat).encode = .ok fr ∧
      ParseMessage fr = some (Message.mk "ping" [("seq", JVal.other 3)])) ∧
    (∃ e, (Message.mk "pong" [("type", JVal.other 1)] : Message Nat).encode = .error e) := by
  constructor
  · exact C5_encode_parse_roundtrip.1 Nat ⟨"ping", [("seq", JVal.other 3)]⟩ (by decide)
  · exact C5_encode_parse_roundtrip.2 Nat ⟨"pong", [("type", JVal.other 1)]⟩ (by decide)

/-- C7: the single-player CPS race ends with a loss and an unchanged
threshold when the reported score does not exceed the stored threshold,
ends with a win for the player and stores the score when it strictly
exceeds it, and across any sequence of plays of the same flag the store
carries forward as the running maximum of the initial threshold and the
winning scores; it is never reset. -/
theorem C7_cps_threshold_behaviour :
    (∀ (sc th : Int) (team : Nat), sc ≤ th →
      endSp (some sc) team th = (SinglePlayerLoss, th)) ∧
    (∀ (sc th : Int) (team : Nat), th < sc →
      endSp (some sc) team th = (SinglePlayerWin team, sc)) ∧
    (∀ (th : Int) (plays : List Int), playThreshold th plays = plays.foldl max th) := by
  refine ⟨?_, ?_, ?_⟩
  · intro sc th team h
    simp [endSp, not_lt.mpr h]
  · intro sc th team h
    simp [endSp, h]
  · intro th plays
    induction plays generalizing th with
    | nil => rfl
    | cons a t ih =>
      have hstep : (endSp (some a) 0 th).2 = max th a := by
        by_cases hc : th < a
        · simp [endSp, hc, max_eq_right (le_of_lt hc)]
        · simp [endSp, hc, max_eq_left (not_lt.mp hc)]
      simp only [playThreshold, List.foldl_cons]
      rw [hstep]
      exact ih (max th a)

/-- Witness for C7: losing at score 3 against threshold 5 and winning at
score 7 against threshold 5. -/
theorem C7_cps_threshold_behaviour_witness :
    endSp (some 3) 0 5 = (SinglePlayerLoss, 5) ∧
    endSp (some 7) 1 5 = (SinglePlayerWin 1, 7) := by
  constructor
  · exact C7_cps_threshold_behaviour.1 3 5 0 (by decide)
  · exact C7_cps_threshold_behaviour.2.1 7 5 1 (by decide)

/-- C4 amended: an inbound ship message of unrecognized type without the
position-manager lead-in gets the typed reply
`ship_unknown_message_type_error` and a nil error; a message bearing the
lead-in whose remainder is not `position_update` makes `HandleMessage`
return a non-nil error with no reply and no state change. -/
theorem C4_unknown_message_dispatch :
    ∀ (now : Nat) (s : Ship) (p : PlayerId) (m : InMsg) (rnd : List Nat),
      m.typ ≠ "ship_flag_activate" → m.typ ≠ "lobby_bye" →
      ((strStarts m.typ movPre = false →
        s.handleMessage now p m rnd =
          (s, [⟨p, "ship_unknown_message_type_error"⟩], none, rnd)) ∧
       (strStarts m.typ movPre = true →
        strDrop m.typ movPre.length ≠ "position_update" →
        (s.handleMessage now p m rnd).2.2.1.isSome = true ∧
        (s.handleMessage now p m rnd).2.1 = [] ∧
        (s.handleMessage now p m rnd).1 = s)) := by
  intro now s p m rnd h1 h2
  constructor
  · intro hpre
    simp [Ship.handleMessage, h1, h2, Ship.pmHandleMessage, hpre]
  · intro hpre hrest
    simp [Ship.handleMessage, h1, h2, Ship.pmHandleMessage, hpre, hrest]

/-- Witness for C4 amended: the plain unknown type `weird` and the
unrecognized position-manager type `ship_mov_bogus`. -/
theorem C4_unknown_message_dispatch_witness :
    c4Ship.handleMessage 0 7 ⟨"weird", []⟩ [] =
      (c4Ship, [⟨7, "ship_unknown_message_type_error"⟩], none, []) ∧
    ((c4Ship.handleMessage 0 7 ⟨"ship_mov_bogus", []⟩ []).2.2.1.isSome = true ∧
     (c4Ship.handleMessage 0 7 ⟨"ship_mov_bogus", []⟩ []).2.1 = [] ∧
     (c4Ship.handleMessage 0 7 ⟨"ship_mov_bogus", []⟩ []).1 = c4Ship) := by
  constructor
  · exact (C4_unknown_message_dispatch 0 c4Ship 7 ⟨"weird", []⟩ []
      (by decide) (by decide)).1 (by decide)
  · exact (C4_unknown_message_dispatch 0 c4Ship 7 ⟨"ship_mov_bogus", []⟩ []
      (by decide) (by decide)).2 (by decide) (by decide)

/-- C8 amended: removing a player that leaves a lobby empty makes the
manager forget the lobby inside the same operation, so the lobby id stops
resolving and the lobby is unreachable for new joins; a removal that
leaves players keeps the lobby registered. (A lobby-create request from a
client already in a lobby can still leave a fresh zero-player lobby
registered, per the counterexample.) -/
theorem C8_removal_forgets_empty_lobby :
    ∀ (mgr : LobbyMgr) (id : String) (l : CLobby) (p : PlayerId),
      (mgr.activities.map Prod.fst).Nodup →
      lookupA mgr.activities id = some l →
      (((l.removePlayerL p).playerCount = 0 →
        (mgr.removePlayer id p).getActivity id = none) ∧
       ((l.removePlayerL p).playerCount ≠ 0 →
        (mgr.removePlayer id p).getActivity id = some (l.removePlayerL p))) := by
  intro mgr id l p hnd hl
  constructor
  · intro h0
    simp only [LobbyMgr.removePlayer, hl, h0, if_true, LobbyMgr.getActivity]
    exact lookupA_removeA_self mgr.activities id hnd
  · intro hne
    simp only [LobbyMgr.removePlayer, hl, hne, if_false, LobbyMgr.getActivity]
    exact lookupA_updateA_self mgr.activities id (l.removePlayerL p)

/-- Witness for C8 amended: removing the last player of lobby DDDD
deletes it; removing one of two players of lobby EEEE keeps it. -/
theorem C8_removal_forgets_empty_lobby_witness :
    ((LobbyMgr.mk [("DDDD", ⟨[5], []⟩)]).removePlayer "DDDD" 5).getActivity "DDDD" = none ∧
    ((LobbyMgr.mk [("EEEE", ⟨[5], [6]⟩)]).removePlayer "EEEE" 5).getActivity "EEEE" =
      some ⟨[], [6]⟩ := by
  constructor
  · exact (C8_removal_forgets_empty_lobby ⟨[("DDDD", ⟨[5], []⟩)]⟩ "DDDD" ⟨[5], []⟩ 5
      (by decide) (by decide)).1 (by decide)
  · exact (C8_removal_forgets_empty_lobby ⟨[("EEEE", ⟨[5], [6]⟩)]⟩ "EEEE" ⟨[5], [6]⟩ 5
      (by decide) (by decide)).2 (by decide)

/-- C9 amended: a join request for a six-player lobby from a client not
already in a lobby is rejected with lobby_full and the manager state is
unchanged (a client already in a lobby is rejected with
client_already_in_lobby_error, also unchanged); an accepted join adds the
player to the team with fewer members, team 0 on ties, and keeps the
lobby at six players or fewer. -/
theorem C9_join_capacity :
    ∀ (mgr : LobbyMgr) (id : String) (l : CLobby) (cp : Option PlayerId) (np : PlayerId),
      lookupA mgr.activities id = some l →
      l.playerCount ≤ 6 →
      ((cp.isSome = true → mgr.handleJoinRequest id cp np = (mgr, .alreadyInLobby)) ∧
       (cp = none → l.playerCount = 6 →
        mgr.handleJoinRequest id cp np = (mgr, .lobbyFull)) ∧
       (cp = none → l.playerCount ≤ 5 →
        (mgr.handleJoinRequest id cp np).2 = .welcome ∧
        (mgr.handleJoinRequest id cp np).1.getActivity id = some (l.addClient np) ∧
        (l.addClient np).playerCount = l.playerCount + 1 ∧
        (l.addClient np).playerCount ≤ 6 ∧
        (l.t0.length ≤ l.t1.length → (l.addClient np).t0 = l.t0 ++ [np]) ∧
        (l.t1.length < l.t0.length → (l.addClient np).t1 = l.t1 ++ [np]))) := by
  intro mgr id l cp np hl h6
  refine ⟨?_, ?_, ?_⟩
  · intro hcp
    simp only [LobbyMgr.handleJoinRequest, hl, joinStep, hcp, if_true]
    rw [updateA_self_eq mgr.activities id l hl]
  · intro hcp hful
    simp only [LobbyMgr.handleJoinRequest, hl, joinStep, hcp, Option.isSome_none,
      Bool.false_eq_true, if_false, hful]
    rw [if_pos (by omega)]
    rw [updateA_self_eq mgr.activities id l hl]
  · intro hcp hle
    have hnotful : ¬(l.playerCount > 5) := by omega
    simp only [LobbyMgr.handleJoinRequest, hl, joinStep, hcp, Option.isSome_none,
      Bool.false_eq_true, if_false]
    rw [if_neg hnotful]
    refine ⟨rfl, ?_, ?_, ?_, ?_, ?_⟩
    · exact lookupA_updateA_self mgr.activities id (l.addClient np)
    · by_cases hb : l.t0.length ≤ l.t1.length
      · simp [CLobby.addClient, hb, CLobby.playerCount]
        omega
      · simp [CLobby.addClient, hb, CLobby.playerCount]
        omega
    · by_cases hb : l.t0.length ≤ l.t1.length
      · simp only [CLobby.addClient, hb, if_true, CLobby.playerCount] at *
        simp only [List.length_append, List.length_cons, List.length_nil]
        omega
      · simp only [CLobby.addClient, hb, if_false, CLobby.playerCount] at *
        simp only [List.length_append, List.length_cons, List.length_nil]
        omega
    · intro hb
      simp [CLobby.addClient, hb]
    · intro hb
      have hb2 : ¬(l.t0.length ≤ l.t1.length) := by omega
      simp [CLobby.addClient, hb2]

/-- Witness for C9 amended at concrete lobbies: a full lobby turns away a
fresh client with lobby_full unchanged, and a 1 versus 2 lobby places the
new player on team 0. -/
theorem C9_join_capacity_witness :
    (LobbyMgr.mk [("FFFF", ⟨[1, 2, 3], [4, 5, 6]⟩)]).handleJoinRequest "FFFF" none 7 =
      (⟨[("FFFF", ⟨[1, 2, 3], [4, 5, 6]⟩)]⟩, .lobbyFull) ∧
    ((LobbyMgr.mk [("GGGG", ⟨[1], [2, 3]⟩)]).handleJoinRequest "GGGG" none 9).2 = .welcome ∧
    ((⟨[1], [2, 3]⟩ : CLobby).addClient 9).t0 = [1, 9] := by
  refine ⟨?_, ?_, ?_⟩
  · exact (C9_join_capacity ⟨[("FFFF", ⟨[1, 2, 3], [4, 5, 6]⟩)]⟩ "FFFF" ⟨[1, 2, 3], [4, 5, 6]⟩
      none 7 (by decide) (by decide)).2.1 rfl (by decide)
  · exact ((C9_join_capacity ⟨[("GGGG", ⟨[1], [2, 3]⟩)]⟩ "GGGG" ⟨[1], [2, 3]⟩
      none 9 (by decide) (by decide)).2.2 rfl (by decide)).1
  · have h := ((C9_join_capacity ⟨[("GGGG", ⟨[1], [2, 3]⟩)]⟩ "GGGG" ⟨[1], [2, 3]⟩
      none 9 (by decide) (by decide)).2.2 rfl (by decide)).2.2.2.2.1 (by decide)
    simpa using h

theorem needsPlayer_none (s : Ship) (f : Flag) (q : PlayerId)
    (h : f.activation = none) : s.needsPlayer f q = false := by
  simp [Ship.needsPlayer, h]

theorem isActivated_false_iff (f : Flag) : f.isActivated = false ↔ f.activation = none := by
  cases h : f.activation <;> simp [Flag.isActivated, h]

/-- Invariant of the Go `oldestFlagNeedingPlayer` loop: with a candidate
that needs the player, the fold result needs the player, came from the
scanned flags or the candidate, and is earliest among all scanned flags
that need the player; the fold yields nothing only when nothing needs the
player. -/
theorem oldest_fold_spec (s : Ship) (q : PlayerId) :
    ∀ (l : List (FlagId × Flag)) (acc : Option (FlagId × Flag)),
      (∀ o, acc = some o → s.needsPlayer o.2 q = true) →
      ((∀ r, l.foldl (oldestStep s q) acc = some r →
        s.needsPlayer r.2 q = true ∧
        (r ∈ l ∨ acc = some r) ∧
        (∀ g ∈ l, s.needsPlayer g.2 q = true → r.2.actStart ≤ g.2.actStart) ∧
        (∀ o, acc = some o → r.2.actStart ≤ o.2.actStart)) ∧
       (l.foldl (oldestStep s q) acc = none →
        acc = none ∧ ∀ g ∈ l, s.needsPlayer g.2 q = false)) := by
  intro l
  induction l with
  | nil =>
    intro acc hacc
    constructor
    · intro r hr
      simp only [List.foldl_nil] at hr
      refine ⟨hacc r hr, Or.inr hr, ?_, ?_⟩
      · intro g hg
        cases hg
      · intro o ho
        rw [hr] at ho
        rw [Option.some.inj ho]
    · intro hr
      simp only [List.foldl_nil] at hr
      exact ⟨hr, by intro g hg; cases hg⟩
  | cons x t ih =>
    intro acc hacc
    simp only [List.foldl_cons]
    by_cases hact : x.2.isActivated = true
    · cases acc with
      | none =>
        by_cases hneed : s.needsPlayer x.2 q = true
        · have hstep : oldestStep s q none x = some x := by
            simp [oldestStep, hact, hneed]
          rw [hstep]
          have hacc2 : ∀ o, (some x : Option (FlagId × Flag)) = some o →
              s.needsPlayer o.2 q = true := by
            intro o ho
            rw [← Option.some.inj ho]
            exact hneed
          obtain ⟨ihs, ihn⟩ := ih (some x) hacc2
          constructor
          · intro r hr
            obtain ⟨h1, h2, h3, h4⟩ := ihs r hr
            refine ⟨h1, ?_, ?_, ?_⟩
            · rcases h2 with h | h
              · exact Or.inl (List.mem_cons_of_mem x h)
              · exact Or.inl (by rw [← Option.some.inj h]; exact List.mem_cons_self x t)
            · intro g hg hneedg
              rcases List.mem_cons.mp hg with he | ht
              · rw [he]
                exact h4 x rfl
              · exact h3 g ht hneedg
            · intro o ho
              cases ho
          · intro hr
            obtain ⟨ha, _⟩ := ihn hr
            cases ha
        · have hstep : oldestStep s q none x = none := by
            simp [oldestStep, hact, hneed]
          rw [hstep]
          obtain ⟨ihs, ihn⟩ := ih none (by intro o ho; cases ho)
          constructor
          · intro r hr
            obtain ⟨h1, h2, h3, h4⟩ := ihs r hr
            refine ⟨h1, ?_, ?_, ?_⟩
            · rcases h2 with h | h
              · exact Or.inl (List.mem_cons_of_mem x h)
              · cases h
            · intro g hg hneedg
              rcases List.mem_cons.mp hg with he | ht
              · exfalso
                rw [he] at hneedg
                exact hneed hneedg
              · exact h3 g ht hneedg
            · intro o ho
              cases ho
          · intro hr
            obtain ⟨_, hall⟩ := ihn hr
            refine ⟨rfl, ?_⟩
            intro g hg
            rcases List.mem_cons.mp hg with he | ht
            · rw [he]
              exact Bool.eq_false_iff.mpr hneed
            · exact hall g ht
      | some o0 =>
        by_cases hcmp : x.2.actStart < o0.2.actStart
        · by_cases hneed : s.needsPlayer x.2 q = true
          · have hstep : oldestStep s q (some o0) x = some x := by
              simp [oldestStep, hact, hcmp, hneed]
            rw [hstep]
            have hacc2 : ∀ o, (some x : Option (FlagId × Flag)) = some o →
                s.needsPlayer o.2 q = true := by
              intro o ho
              rw [← Option.some.inj ho]
              exact hneed
            obtain ⟨ihs, ihn⟩ := ih (some x) hacc2
            constructor
            · intro r hr
              obtain ⟨h1, h2, h3, h4⟩ := ihs r hr
              refine ⟨h1, ?_, ?_, ?_⟩
              · rcases h2 with h | h
                · exact Or.inl (List.mem_cons_of_mem x h)
                · exact Or.inl (by rw [← Option.some.inj h]; exact List.mem_cons_self x t)
              · intro g hg hneedg
                rcases List.mem_cons.mp hg with he | ht
                · rw [he]
                  exact h4 x rfl
                · exact h3 g ht hneedg
              · intro o ho
                rw [← Option.some.inj ho]
                exact le_trans (h4 x rfl) (le_of_lt hcmp)
            · intro hr
              obtain ⟨ha, _⟩ := ihn hr
              cases ha
          · have hstep : oldestStep s q (some o0) x = some o0 := by
              simp [oldestStep, hact, hcmp, hneed]
            rw [hstep]
            obtain ⟨ihs, ihn⟩ := ih (some o0) hacc
            constructor
            · intro r hr
              obtain ⟨h1, h2, h3, h4⟩ := ihs r hr
              refine ⟨h1, ?_, ?_, h4⟩
              · rcases h2 with h | h
                · exact Or.inl (List.mem_cons_of_mem x h)
                · exact Or.inr h
              · intro g hg hneedg
                rcases List.mem_cons.mp hg with he | ht
                · exfalso
                  rw [he] at hneedg
                  exact hneed hneedg
                · exact h3 g ht hneedg
            · intro hr
              obtain ⟨ha, _⟩ := ihn hr
              cases ha
        · have hle : o0.2.actStart ≤ x.2.actStart := not_lt.mp hcmp
          have hstep : oldestStep s q (some o0) x = some o0 := by
            simp [oldestStep, hact, hcmp]
          rw [hstep]
          obtain ⟨ihs, ihn⟩ := ih (some o0) hacc
          constructor
          · intro r hr
            obtain ⟨h1, h2, h3, h4⟩ := ihs r hr
            refine ⟨h1, ?_, ?_, h4⟩
            · rcases h2 with h | h
              · exact Or.inl (List.mem_cons_of_mem x h)
              · exact Or.inr h
            · intro g hg hneedg
              rcases List.mem_cons.mp hg with he | ht
              · rw [he]
                exact le_trans (h4 o0 rfl) hle
              · exact h3 g ht hneedg
          · intro hr
            obtain ⟨ha, _⟩ := ihn hr
            cases ha
    · have hstep : oldestStep s q acc x = acc := by
        simp [oldestStep, hact]
      rw [hstep]
      have hxneeds : s.needsPlayer x.2 q = false :=
        needsPlayer_none s x.2 q
          ((isActivated_false_iff x.2).mp (Bool.eq_false_iff.mpr hact))
      obtain ⟨ihs, ihn⟩ := ih acc hacc
      constructor
      · intro r hr
        obtain ⟨h1, h2, h3, h4⟩ := ihs r hr
        refine ⟨h1, ?_, ?_, h4⟩
        · rcases h2 with h | h
          · exact Or.inl (List.mem_cons_of_mem x h)
          · exact Or.inr h
        · intro g hg hneedg
          rcases List.mem_cons.mp hg with he | ht
          · exfalso
            rw [he, hxneeds] at hneedg
            cases hneedg
          · exact h3 g ht hneedg
      · intro hr
        obtain ⟨ha, hall⟩ := ihn hr
        refine ⟨ha, ?_⟩
        intro g hg
        rcases List.mem_cons.mp hg with he | ht
        · rw [he]
          exact hxneeds
        · exact hall g ht

/-- Specification of Go `oldestFlagNeedingPlayer`: its result needs the
player and has the least activation start time among all flags that need
the player; a nil result means no flag needs the player. -/
theorem oldestFlagNeedingPlayer_spec (s : Ship) (q : PlayerId) :
    (∀ r, s.oldestFlagNeedingPlayer q = some r →
      s.needsPlayer r.2 q = true ∧ r ∈ s.flags ∧
      ∀ g ∈ s.flags, s.needsPlayer g.2 q = true → r.2.actStart ≤ g.2.actStart) ∧
    (s.oldestFlagNeedingPlayer q = none →
      ∀ g ∈ s.flags, s.needsPlayer g.2 q = false) := by
  obtain ⟨hs, hn⟩ := oldest_fold_spec s q s.flags none (by intro o ho; cases ho)
  constructor
  · intro r hr
    obtain ⟨h1, h2, h3, _⟩ := hs r hr
    refine ⟨h1, ?_, h3⟩
    rcases h2 with h | h
    · exact h
    · cases h
  · intro hr
    exact (hn hr).2

theorem mem_updateA {κ β : Type} [DecidableEq κ] (l : List (κ × β)) (k : κ) (v : β)
    (x : κ × β) (hx : x ∈ updateA l k v) : x ∈ l ∨ x = (k, v) := by
  induction l with
  | nil =>
    simp only [updateA, List.mem_singleton] at hx
    exact Or.inr hx
  | cons h t ih =>
    by_cases hk : h.1 = k
    · simp only [updateA, hk, if_true] at hx
      rcases List.mem_cons.mp hx with he | ht
      · exact Or.inr he
      · exact Or.inl (List.mem_cons_of_mem h ht)
    · simp only [updateA, hk, if_false] at hx
      rcases List.mem_cons.mp hx with he | ht
      · exact Or.inl (he ▸ List.mem_cons_self h t)
      · rcases ih ht with hm | he
        · exact Or.inl (List.mem_cons_of_mem h hm)
        · exact Or.inr he

theorem mem_addToGroups (groups : List (FlagId × List PlayerId)) (id : FlagId)
    (p : PlayerId) (x : FlagId × List PlayerId) (hx : x ∈ addToGroups groups id p) :
    x ∈ groups ∨
    (∃ ps, lookupA groups id = some ps ∧ x = (id, ps ++ [p])) ∨
    (lookupA groups id = none ∧ x = (id, [p])) := by
  unfold addToGroups at hx
  cases hl : lookupA groups id with
  | some ps =>
    rw [hl] at hx
    rcases mem_updateA groups id (ps ++ [p]) x hx with hm | he
    · exact Or.inl hm
    · exact Or.inr (Or.inl ⟨ps, rfl, he⟩)
  | none =>
    rw [hl] at hx
    rcases List.mem_append.mp hx with hm | he
    · exact Or.inl hm
    · exact Or.inr (Or.inr ⟨rfl, List.mem_singleton.mp he⟩)

/-- Invariant of the Go `findEligiblePlayersForFlags` fold: every grouped
player is unlocked and grouped under their earliest needing flag. -/
theorem findEligible_fold_spec (s : Ship) :
    ∀ (players : List PlayerId) (groups : List (FlagId × List PlayerId)),
      (∀ g ∈ groups, ∀ x ∈ g.2, s.flagForPlayer x = none ∧
        ∃ f, s.oldestFlagNeedingPlayer x = some (g.1, f)) →
      ∀ g ∈ players.foldl (fun gs p =>
          if (s.flagForPlayer p).isSome then gs
          else
            match s.oldestFlagNeedingPlayer p with
            | none => gs
            | some idf => addToGroups gs idf.1 p) groups,
        ∀ x ∈ g.2, s.flagForPlayer x = none ∧
          ∃ f, s.oldestFlagNeedingPlayer x = some (g.1, f) := by
  intro players
  induction players with
  | nil =>
    intro groups hg
    simpa using hg
  | cons p t ih =>
    intro groups hg
    simp only [List.foldl_cons]
    by_cases hfp : (s.flagForPlayer p).isSome = true
    · rw [if_pos hfp]
      exact ih groups hg
    · rw [if_neg hfp]
      have hfpn : s.flagForPlayer p = none := Option.not_isSome_iff_eq_none.mp hfp
      cases hold : s.oldestFlagNeedingPlayer p with
      | none => exact ih groups hg
      | some idf =>
        refine ih (addToGroups groups idf.1 p) ?_
        intro g hgm x hx
        rcases mem_addToGroups groups idf.1 p g hgm with hm | hnew | hfresh
        · exact hg g hm x hx
        · obtain ⟨ps, hps, hge⟩ := hnew
          have hmem : (idf.1, ps) ∈ groups := lookupA_mem groups idf.1 ps hps
          rw [hge] at hx
          rcases List.mem_append.mp hx with hxp | hxe
          · have := hg (idf.1, ps) hmem x hxp
            rw [hge]
            exact this
          · have hxeq : x = p := List.mem_singleton.mp hxe
            rw [hge, hxeq]
            exact ⟨hfpn, ⟨idf.2, by rw [hold]⟩⟩
        · obtain ⟨_, hge⟩ := hfresh
          rw [hge] at hx
          have hxeq : x = p := List.mem_singleton.mp hx
          rw [hge, hxeq]
          exact ⟨hfpn, ⟨idf.2, by rw [hold]⟩⟩

/-- C6: whenever the assignment procedure groups a free player under a
flag, that flag needs the player and carries the earliest activation
start time among all flags that need the player, so the player is never
assigned to a later-activated flag while an earlier-activated one needs
them. -/
theorem C6_earliest_recruiting_flag_selected :
    ∀ (s : Ship) (id : FlagId) (ps : List PlayerId) (q : PlayerId),
      (id, ps) ∈ s.findEligiblePlayersForFlags → q ∈ ps →
      s.flagForPlayer q = none ∧
      ∃ f, s.oldestFlagNeedingPlayer q = some (id, f) ∧
        (id, f) ∈ s.flags ∧ s.needsPlayer f q = true ∧
        ∀ g ∈ s.flags, s.needsPlayer g.2 q = true → f.actStart ≤ g.2.actStart := by
  intro s id ps q hmem hq
  have hinv := findEligible_fold_spec s s.shipPlayers []
    (by intro g hg; cases hg) (id, ps) hmem q hq
  obtain ⟨hfree, f, hold⟩ := hinv
  obtain ⟨h1, h2, h3⟩ := (oldestFlagNeedingPlayer_spec s q).1 (id, f) hold
  exact ⟨hfree, f, hold, h2, h1, h3⟩

/-- Witness for C6: in a ship whose flag fb was activated at time 5 and
flag fa at time 10, the free player 3 is grouped under fb, which needs
them and is earliest among the needing flags. -/
theorem C6_earliest_recruiting_flag_selected_witness :
    c6Ship.flagForPlayer 3 = none ∧
    ∃ f, c6Ship.oldestFlagNeedingPlayer 3 = some ("fb", f) ∧
      ("fb", f) ∈ c6Ship.flags ∧ c6Ship.needsPlayer f 3 = true ∧
      ∀ g ∈ c6Ship.flags, c6Ship.needsPlayer g.2 3 = true → f.actStart ≤ g.2.actStart :=
  C6_earliest_recruiting_flag_selected c6Ship "fb" [3, 4] 3 (by decide) (by decide)

theorem length_filter_lt_of_mem_false {α : Type} (pr : α → Bool) (l : List α) (x : α)
    (hx : x ∈ l) (hpx : pr x = false) : (l.filter pr).length < l.length := by
  induction l with
  | nil => cases hx
  | cons a t ih =>
    rw [List.filter_cons]
    by_cases hc : pr a = true
    · have hat : x ∈ t := by
        rcases List.mem_cons.mp hx with h | h
        · rw [h] at hpx
          rw [hpx] at hc
          cases hc
        · exact h
      simp only [hc, if_true, List.length_cons]
      exact Nat.succ_lt_succ (ih hat)
    · simp only [hc, if_false, List.length_cons]
      exact Nat.lt_succ_of_le (List.length_filter_le _ t)

theorem delRemaining_length_lt (st : Ship) (id : FlagId) (p : PlayerId)
    (l : List PlayerId) (hp : p ∈ l) : (delRemaining st id p l).length < l.length := by
  unfold delRemaining
  apply length_filter_lt_of_mem_false _ l p hp
  simp

theorem nearestStep_cases (ppos : Position) (acc : Option (FlagId × Flag × Rat))
    (x : FlagId × Flag) :
    nearestStep ppos acc x = acc ∨
    nearestStep ppos acc x = some (x.1, x.2, ppos.distSq x.2.pos) := by
  cases acc with
  | none =>
    simp only [nearestStep]
    by_cases hd : flagReachSq < ppos.distSq x.2.pos
    · rw [if_pos hd]
      exact Or.inl rfl
    · rw [if_neg hd]
      exact Or.inr rfl
  | some prev =>
    simp only [nearestStep]
    by_cases hd : flagReachSq < ppos.distSq x.2.pos
    · rw [if_pos hd]
      exact Or.inl rfl
    · rw [if_neg hd]
      by_cases hlt : ppos.distSq x.2.pos < prev.2.2
      · rw [if_pos hlt]
        exact Or.inr rfl
      · rw [if_neg hlt]
        exact Or.inl rfl

theorem nearest_fold_mem (ppos : Position) :
    ∀ (l : List (FlagId × Flag)) (acc : Option (FlagId × Flag × Rat)) (r : FlagId × Flag × Rat),
      l.foldl (nearestStep ppos) acc = some r → (r.1, r.2.1) ∈ l ∨ acc = some r := by
  intro l
  induction l with
  | nil =>
    intro acc r hr
    exact Or.inr (by simpa using hr)
  | cons x t ih =>
    intro acc r hr
    simp only [List.foldl_cons] at hr
    rcases ih _ r hr with hm | he
    · exact Or.inl (List.mem_cons_of_mem x hm)
    · rcases nearestStep_cases ppos acc x with hc | hc
      · rw [hc] at he
        exact Or.inr he
      · rw [hc] at he
        have := Option.some.inj he
        exact Or.inl (by rw [← this]; exact List.mem_cons_self x t)

theorem findNearestFlag_mem (s : Ship) (p : PlayerId) (idf : FlagId × Flag)
    (h : s.findNearestFlag p = some idf) : idf ∈ s.flags := by
  unfold Ship.findNearestFlag at h
  cases hr : s.flags.foldl (nearestStep (s.posOf p)) none with
  | none =>
    rw [hr] at h
    cases h
  | some r =>
    rw [hr] at h
    have h2 : (r.1, r.2.1) = idf := by simpa using h
    rcases nearest_fold_mem (s.posOf p) s.flags none r hr with hm | he
    · rw [← h2]
      exact hm
    · cases he

theorem flags_foldl_setAct (ps : List PlayerId) (m : PActivity) :
    ∀ (s : Ship), (ps.foldl (fun st p => st.setAct p m) s).flags = s.flags := by
  induction ps with
  | nil =>
    intro s
    rfl
  | cons a t ih =>
    intro s
    rw [List.foldl_cons, ih]
    rfl

theorem addPlayerToFlag_busy (s : Ship) (id2 : FlagId) (q : PlayerId) (id : FlagId)
    (h : BusyAt id s) : BusyAt id (s.addPlayerToFlag id2 q).1 := by
  cases hg : s.getFlag id2 with
  | none =>
    simp only [Ship.addPlayerToFlag, hg]
    exact h
  | some f =>
    cases ha : f.activation with
    | none =>
      simp only [Ship.addPlayerToFlag, hg, ha]
      exact h
    | some a =>
      simp only [Ship.addPlayerToFlag, hg, ha]
      unfold BusyAt at h ⊢
      by_cases hid : id = id2
      · subst hid
        exact ⟨_, lookupA_updateA_self s.flags id _, by simp⟩
      · obtain ⟨f2, hf2, hp2⟩ := h
        refine ⟨f2, ?_, hp2⟩
        show lookupA (updateA s.flags id2 _) id = some f2
        rw [lookupA_updateA_ne s.flags id2 id _ hid]
        exact hf2

theorem startMinigameForFlag_busy (s : Ship) (id2 id : FlagId) (h : BusyAt id s) :
    BusyAt id (s.startMinigameForFlag id2).1 := by
  cases hg : s.getFlag id2 with
  | none =>
    simp only [Ship.startMinigameForFlag, hg]
    exact h
  | some f =>
    cases ha : f.activation with
    | none =>
      simp only [Ship.startMinigameForFlag, hg, ha]
      exact h
    | some a =>
      simp only [Ship.startMinigameForFlag, hg, ha]
      unfold BusyAt at h ⊢
      by_cases hid : id = id2
      · subst hid
        refine ⟨{ f with minigame := true, activation := none }, ?_, by simp⟩
        unfold Ship.getFlag
        rw [flags_foldl_setAct]
        exact lookupA_updateA_self s.flags id _
      · obtain ⟨f2, hf2, hp2⟩ := h
        refine ⟨f2, ?_, hp2⟩
        unfold Ship.getFlag
        rw [flags_foldl_setAct]
        show lookupA (updateA s.flags id2 _) id = some f2
        rw [lookupA_updateA_ne s.flags id2 id _ hid]
        exact hf2

theorem lockLoop_busy :
    ∀ (n : Nat) (s : Ship) (id2 : FlagId) (players : List PlayerId) (rnd : List Nat)
      (id : FlagId), players.length ≤ n → BusyAt id s →
      BusyAt id (s.lockLoop id2 players rnd).1 := by
  intro n
  induction n with
  | zero =>
    intro s id2 players rnd id hlen h
    have hnil : players = [] := List.length_eq_zero.mp (Nat.le_zero.mp hlen)
    subst hnil
    rw [Ship.lockLoop]
    exact h
  | succ n ih =>
    intro s id2 players rnd id hlen h
    cases players with
    | nil =>
      rw [Ship.lockLoop]
      exact h
    | cons q qs =>
      rw [Ship.lockLoop]
      simp only
      apply ih
      · exact Nat.le_of_lt_succ (Nat.lt_of_lt_of_le
          (delRemaining_length_lt _ _ _ (q :: qs) (List.get_mem (q :: qs) _ _)) hlen)
      · exact addPlayerToFlag_busy s id2 _ id h

theorem processGroup_busy (s : Ship) (id2 : FlagId) (players : List PlayerId)
    (rnd : List Nat) (id : FlagId) (h : BusyAt id s) :
    BusyAt id (s.processGroup id2 players rnd).1 := by
  unfold Ship.processGroup
  have hl := lockLoop_busy players.length s id2 players rnd id (le_refl _) h
  cases hg : (s.lockLoop id2 players rnd).1.getFlag id2 with
  | none =>
    simp only [hg]
    exact hl
  | some f1 =>
    simp only [hg]
    by_cases hall : f1.hasAllPlayers = true
    · rw [if_pos hall]
      exact startMinigameForFlag_busy _ id2 id hl
    · rw [if_neg hall]
      exact hl

theorem groups_fold_busy (id : FlagId) :
    ∀ (gs : List (FlagId × List PlayerId)) (acc : Ship × List Msg × List Nat),
      BusyAt id acc.1 →
      BusyAt id ((gs.foldl (fun acc g =>
        let r := acc.1.processGroup g.1 g.2 acc.2.2
        (r.1, acc.2.1 ++ r.2.1, r.2.2)) acc).1) := by
  intro gs
  induction gs with
  | nil =>
    intro acc h
    simpa using h
  | cons g gt ih =>
    intro acc h
    rw [List.foldl_cons]
    apply ih
    exact processGroup_busy acc.1 g.1 g.2 acc.2.2 id h

theorem addPlayersToFlags_busy (s : Ship) (rnd : List Nat) (id : FlagId)
    (h : BusyAt id s) : BusyAt id (s.addPlayersToFlags rnd).1 := by
  unfold Ship.addPlayersToFlags
  by_cases hend : s.isEndgame = true
  · rw [if_pos hend]
    exact h
  · rw [if_neg hend]
    exact groups_fold_busy id s.findEligiblePlayersForFlags (s, [], rnd) h

theorem startMinigame_after_set (s : Ship) (id : FlagId) (f : Flag) (a : Activation)
    (hf : f.activation = some a) :
    ∃ f1, ((s.setFlag id f).startMinigameForFlag id).1.getFlag id = some f1 ∧
      f1.minigame = true := by
  have hg1 : (s.setFlag id f).getFlag id = some f := lookupA_updateA_self s.flags id f
  simp only [Ship.startMinigameForFlag, hg1, hf]
  refine ⟨{ f with minigame := true, activation := none }, ?_, rfl⟩
  unfold Ship.getFlag
  rw [flags_foldl_setAct]
  exact lookupA_updateA_self _ id _

/-- C3: a `ship_flag_activate` request succeeds exactly when the ship is
not in endgame, some flag is within the squared reach radius, the nearest
such flag is not owned by the requesting player team, is not running, is
not cooling down, is not already activated, and the player is not locked
to any flag; on success that flag ends up activated or (single-player
prototypes, or a multiplayer flag that filled at once) running, and in
every rejecting case the player receives exactly one typed error reply
while the ship state is left untouched. -/
theorem C3_flag_activation_iff :
    ∀ (now : Nat) (s : Ship) (p : PlayerId) (rnd : List Nat),
      (s.flags.map Prod.fst).Nodup →
      ((s.activateConds now p = false →
        (s.tryActivateFlag now p rnd).1 = s ∧
        ∃ t ∈ activateErrTypes, (s.tryActivateFlag now p rnd).2.1 = [⟨p, t⟩]) ∧
       (s.activateConds now p = true →
        ∃ idf, s.findNearestFlag p = some idf ∧
          ∃ f1, (s.tryActivateFlag now p rnd).1.getFlag idf.1 = some f1 ∧
            (idf.2.proto.playerCount = 1 → f1.minigame = true) ∧
            (f1.isActivated = true ∨ f1.minigame = true))) := by
  intro now s p rnd hnd
  cases hend : s.isEndgame with
  | true =>
    constructor
    · intro _
      refine ⟨by simp [Ship.tryActivateFlag, hend], ?_⟩
      exact ⟨"ship_no_flags_in_endgame", by decide, by simp [Ship.tryActivateFlag, hend]⟩
    · intro hc
      exfalso
      simp [Ship.activateConds, hend] at hc
  | false =>
    cases hnf : s.findNearestFlag p with
    | none =>
      constructor
      · intro _
        refine ⟨by simp [Ship.tryActivateFlag, hend, hnf], ?_⟩
        exact ⟨"ship_no_flags_in_reach", by decide, by simp [Ship.tryActivateFlag, hend, hnf]⟩
      · intro hc
        exfalso
        simp [Ship.activateConds, hend, hnf] at hc
    | some idf =>
      cases hlock : (s.flagForPlayer p).isSome with
      | true =>
        constructor
        · intro _
          refine ⟨by simp [Ship.tryActivateFlag, hend, hnf, hlock], ?_⟩
          exact ⟨"ship_player_locked", by decide,
            by simp [Ship.tryActivateFlag, hend, hnf, hlock]⟩
        · intro hc
          exfalso
          simp [Ship.activateConds, hend, hnf, hlock] at hc
      | false =>
        cases hown : idf.2.owner == some (s.teamOf p) with
        | true =>
          constructor
          · intro _
            refine ⟨by simp [Ship.tryActivateFlag, hend, hnf, hlock, hown], ?_⟩
            exact ⟨"ship_flag_already_captured", by decide,
              by simp [Ship.tryActivateFlag, hend, hnf, hlock, hown]⟩
          · intro hc
            exfalso
            simp [Ship.activateConds, hend, hnf, hlock, hown] at hc
        | false =>
          cases hmini : idf.2.minigame with
          | true =>
            constructor
            · intro _
              refine ⟨by simp [Ship.tryActivateFlag, hend, hnf, hlock, hown, hmini], ?_⟩
              exact ⟨"ship_flag_in_use", by decide,
                by simp [Ship.tryActivateFlag, hend, hnf, hlock, hown, hmini]⟩
            · intro hc
              exfalso
              simp [Ship.activateConds, hend, hnf, hlock, hown, hmini] at hc
          | false =>
            cases hcool : idf.2.cooldown.hasEnded now with
            | false =>
              constructor
              · intro _
                refine ⟨by simp [Ship.tryActivateFlag, hend, hnf, hlock, hown, hmini, hcool], ?_⟩
                exact ⟨"ship_flag_cooling_down", by decide,
                  by simp [Ship.tryActivateFlag, hend, hnf, hlock, hown, hmini, hcool]⟩
              · intro hc
                exfalso
                simp [Ship.activateConds, hend, hnf, hlock, hown, hmini, hcool] at hc
            | true =>
              cases hactv : idf.2.isActivated with
              | true =>
                constructor
                · intro _
                  refine ⟨by simp [Ship.tryActivateFlag, hend, hnf, hlock, hown, hmini,
                    hcool, hactv], ?_⟩
                  exact ⟨"ship_flag_already_activated", by decide,
                    by simp [Ship.tryActivateFlag, hend, hnf, hlock, hown, hmini, hcool, hactv]⟩
                · intro hc
                  exfalso
                  simp [Ship.activateConds, hend, hnf, hlock, hown, hmini, hcool, hactv] at hc
              | false =>
                constructor
                · intro hc
                  exfalso
                  simp [Ship.activateConds, hend, hnf, hlock, hown, hmini, hcool, hactv] at hc
                · intro _
                  refine ⟨idf, rfl, ?_⟩
                  have hget : s.getFlag idf.1 = some idf.2 :=
                    lookupA_eq_of_mem_nodup s.flags idf.1 idf.2
                      (findNearestFlag_mem s p idf hnf) hnd
                  have hrun : s.tryActivateFlag now p rnd = s.activateFlag now p idf.1 rnd := by
                    simp [Ship.tryActivateFlag, hend, hnf, hlock, hown, hmini, hcool, hactv]
                  rw [hrun]
                  simp only [Ship.activateFlag, hget]
                  by_cases hpc : idf.2.proto.playerCount = 1
                  · rw [if_pos hpc]
                    obtain ⟨f1, hf1, hm⟩ := startMinigame_after_set s idf.1
                      { idf.2 with activation := some ⟨now, [p]⟩ } ⟨now, [p]⟩ rfl
                    exact ⟨f1, hf1, fun _ => hm, Or.inr hm⟩
                  · rw [if_neg hpc]
                    have hb0 : BusyAt idf.1
                        ((s.setFlag idf.1 { idf.2 with activation := some ⟨now, []⟩
                          }).addPlayerToFlag idf.1 p).1 := by
                      apply addPlayerToFlag_busy
                      exact ⟨{ idf.2 with activation := some ⟨now, []⟩ },
                        lookupA_updateA_self s.flags idf.1 _, by simp⟩
                    obtain ⟨f2, hf2, hp2⟩ := addPlayersToFlags_busy _ rnd idf.1 hb0
                    refine ⟨f2, hf2, fun hp1 => absurd hp1 hpc, ?_⟩
                    cases ha2 : f2.activation.isSome with
                    | true => exact Or.inl ha2
                    | false =>
                      rw [ha2] at hp2
                      simp only [Bool.false_or] at hp2
                      exact Or.inr hp2

/-- Witness for C3: in `cwShip`, player 2 (far from every flag) is
rejected with a typed reply and no state change, while player 1 (standing
on the idle flag f1) activates it, which immediately fills and starts the
1v1 minigame. -/
theorem C3_flag_activation_iff_witness :
    ((cwShip.tryActivateFlag 0 2 []).1 = cwShip ∧
      ∃ t ∈ activateErrTypes, (cwShip.tryActivateFlag 0 2 []).2.1 = [⟨2, t⟩]) ∧
    (∃ idf, cwShip.findNearestFlag 1 = some idf ∧
      ∃ f1, (cwShip.tryActivateFlag 0 1 []).1.getFlag idf.1 = some f1 ∧
        (idf.2.proto.playerCount = 1 → f1.minigame = true) ∧
        (f1.isActivated = true ∨ f1.minigame = true)) := by
  have hfar : cwShip.activateConds 0 2 = false := by
    norm_num [Ship.activateConds, cwShip, Ship.findNearestFlag, nearestStep, Ship.posOf,
      lookupA, Position.distSq, flagReachSq, playerFlagReach]
  have hnear : cwShip.activateConds 0 1 = true := by
    norm_num [Ship.activateConds, cwShip, Ship.findNearestFlag, nearestStep, Ship.posOf,
      lookupA, Position.distSq, flagReachSq, playerFlagReach, Ship.flagForPlayer,
      Flag.isActivated, Ship.teamOf, FunctionTimer.hasEnded, List.find?]
  constructor
  · exact (C3_flag_activation_iff 0 cwShip 2 [] (by decide)).1 hfar
  · exact (C3_flag_activation_iff 0 cwShip 1 [] (by decide)).2 hnear

end OOS
